import Mathlib

/-!
Shallow embedding of the Role Resolution Engine of the HiringAssistant
repository (app/tools/role_matcher.py, app/components/unresolved_role_panel.py,
app/graph/nodes.py), together with theorems settling the behavioural claims
about phrase extraction, fuzzy matching, the role-resolution state machine,
KB loading and custom-role persistence.

Strings are processed at the character level; the Python code paths under
verification only ever receive ASCII text, on which `unicodedata.normalize
("NFKC", _)` is the identity and `str.lower`/`\w` agree with the ASCII
versions used here.
-/

namespace HiringAssistant

/-- Python `\s` (whitespace class) restricted to ASCII: space, tab, LF, CR,
form feed, vertical tab. -/
def pyIsSpace (c : Char) : Bool :=
  c = ' ' || c = '\t' || c = '\n' || c = '\x0d' || c = '\x0c' || c = '\x0b'

/-- Python `\w` (word character) restricted to ASCII: letters, digits, `_`. -/
def isWordChar (c : Char) : Bool :=
  c.isAlphanum || c = '_'

/-- Python `str.strip()` on ASCII text. -/
def pyStrip (s : String) : String :=
  String.mk (((s.data.dropWhile pyIsSpace).reverse.dropWhile pyIsSpace).reverse)

/-- Auxiliary for `pySplitWs`: split a character list on whitespace runs. -/
def splitWsAux : List Char → List Char → List (List Char)
  | [], acc => if acc = [] then [] else [acc.reverse]
  | c :: cs, acc =>
    if pyIsSpace c then
      if acc = [] then splitWsAux cs [] else acc.reverse :: splitWsAux cs []
    else splitWsAux cs (c :: acc)

/-- Python `str.split()` with no argument: split on whitespace runs, dropping
empty fields. -/
def pySplitWs (s : String) : List String :=
  (splitWsAux s.data []).map String.mk

/-- Auxiliary for `collapseWs`: `prevSp` records whether the previous input
character was whitespace (so that a run collapses to a single space). -/
def collapseWsAux : Bool → List Char → List Char
  | _, [] => []
  | prevSp, c :: cs =>
    if pyIsSpace c then
      if prevSp then collapseWsAux true cs else ' ' :: collapseWsAux true cs
    else c :: collapseWsAux false cs

/-- Python `re.sub(r"\s+", " ", s)`: every whitespace run becomes one space. -/
def collapseWs (l : List Char) : List Char :=
  collapseWsAux false l

/-- `_normalize` from role_matcher.py: NFKC (identity on ASCII), lowercase,
strip, replace every character outside `\w`, whitespace, `/ # + -` by a
space, then collapse whitespace runs. -/
def _normalize (s : String) : String :=
  let s1 := pyStrip (String.mk (s.data.map Char.toLower))
  let s2 := s1.data.map (fun c =>
    if isWordChar c || pyIsSpace c || c = '/' || c = '#' || c = '+' || c = '-'
    then c else ' ')
  String.mk (collapseWs s2)

/-- `_STOP_HEAD` from role_matcher.py: leading filler words stripped from the
start of each segment. -/
def _STOP_HEAD : List String :=
  ["i","we","you","they","to","a","an","the","my","our","your",
   "need","needs","needing","hire","hiring","looking","search","searching",
   "recruit","recruiting","open","opening","want","wanted",
   "someone","help","please","thanks","thank","thankyou","thank-you","can",
   "could","would"]

/-- `_clean_head_tokens` from role_matcher.py: drop leading filler tokens,
then drop from the left until at most `maxLen` tokens remain (keeping the
role-defining noun tail), and rejoin with single spaces. -/
def _clean_head_tokens (maxLen : Nat) (text : String) : String :=
  let toks := pySplitWs (pyStrip text)
  let toks := toks.dropWhile (fun t => _STOP_HEAD.contains t)
  let toks := toks.drop (toks.length - maxLen)
  pyStrip (String.intercalate " " toks)

/-- `_HEAD_NOUNS` from role_matcher.py: nouns that commonly end role titles. -/
def _HEAD_NOUNS : List String :=
  ["engineer","developer","intern","designer","analyst","manager",
   "scientist","architect","lead","specialist","pm","producer",
   "marketer","researcher","administrator","technician","consultant"]

/-- The local `head_noun` helper of `_attach_missing_head_noun`: the last
whitespace token of `s` when it is a known head noun (`none` for the empty
string or a non-noun tail). -/
def headNoun (s : String) : Option String :=
  if s = "" then none
  else
    match (pySplitWs s).getLast? with
    | some w => if _HEAD_NOUNS.contains w then some w else none
    | none => none

/-- Recursion of `_attach_missing_head_noun`: `last` is the most recently
seen head noun; the look-ahead `cands[i+1]` is the head of the untouched
remainder of the input list. -/
def attachAux : Option String → List String → List String
  | _, [] => []
  | last, c :: rest =>
    let base :=
      if (pySplitWs c).length ≤ 2 && (headNoun c).isNone then
        let ahead := match rest.head? with | some a => a | none => ""
        let noun := match headNoun ahead with | some n => some n | none => last
        match noun with
        | some n => c ++ " " ++ n
        | none => c
      else c
    let last' := match headNoun base with | some h => some h | none => last
    base :: attachAux last' rest

/-- `_attach_missing_head_noun` from role_matcher.py: a short candidate
(≤ 2 tokens) that does not end in a known head noun borrows one from the
next candidate or, failing that, the most recently seen head noun. -/
def _attach_missing_head_noun (cands : List String) : List String :=
  attachAux none cands

/-- The punctuation class of the `_SPLIT` regex: `[,\.\?\!\n;/|]`. -/
def splitPunct (c : Char) : Bool :=
  c = ',' || c = '.' || c = '?' || c = '!' || c = '\n' || c = ';' ||
  c = '/' || c = '|'

/-- The conjunction alternatives of `_SPLIT` (matched case-insensitively). -/
def conjWords : List (List Char) :=
  [['a','n','d'], ['o','r'], ['p','l','u','s'], ['w','i','t','h']]

/-- Try to match one of `conjWords` (case-insensitively) at the head of `cs`,
with a word boundary on its right; returns the matched length. -/
def matchConj (cs : List Char) : Option Nat :=
  conjWords.findSome? (fun w =>
    if (cs.take w.length).map Char.toLower = w then
      match cs.drop w.length with
      | [] => some w.length
      | d :: _ => if isWordChar d then none else some w.length
    else none)

/-- Scanner implementing `_SPLIT.split`: splits on each punctuation character
and on whole-word conjunctions.  `prevIsWord` tracks the left word boundary
(`\b`) of the conjunction alternatives.  Splitting on each punctuation
character singly, instead of on `[...]+` runs, only inserts extra empty
segments, which the caller filters out.  The fuel argument is the remaining
input length (every step consumes at least one character and one unit of
fuel, so the zero-fuel branch is unreachable from `splitSegs`); it keeps
the recursion structural. -/
def splitSegsAux : Nat → List Char → Bool → List Char → List (List Char)
  | 0, _, _, acc => [acc.reverse]
  | _ + 1, [], _, acc => [acc.reverse]
  | fuel + 1, c :: cs, prevIsWord, acc =>
    if splitPunct c then
      acc.reverse :: splitSegsAux fuel cs false []
    else if !prevIsWord then
      match matchConj (c :: cs) with
      | some n => acc.reverse :: splitSegsAux fuel (cs.drop (n - 1)) true []
      | none => splitSegsAux fuel cs (isWordChar c) (c :: acc)
    else
      splitSegsAux fuel cs (isWordChar c) (c :: acc)

/-- `_SPLIT.split(prompt)`: the raw segments, empty fields included. -/
def splitSegs (s : String) : List String :=
  (splitSegsAux s.data.length s.data false []).map String.mk

/-- The polite-tail phrases removed inside each segment:
`\b(can you help|please|thanks|thank you)\b` (the input is already
lowercase, so the pattern is matched literally). -/
def politePhrases : List (List Char) :=
  ["can you help".data, "please".data, "thanks".data, "thank you".data]

/-- Try to match one of `politePhrases` at the head of `cs`, with a word
boundary on its right; returns the matched length. -/
def matchPolite (cs : List Char) : Option Nat :=
  politePhrases.findSome? (fun w =>
    if cs.take w.length = w then
      match cs.drop w.length with
      | [] => some w.length
      | d :: _ => if isWordChar d then none else some w.length
    else none)

/-- Scanner implementing `re.sub` of the polite-tail pattern with a single
space; `prevIsWord` tracks the left word boundary.  Fuel as in
`splitSegsAux`. -/
def politeSubAux : Nat → List Char → Bool → List Char
  | 0, _, _ => []
  | _ + 1, [], _ => []
  | fuel + 1, c :: cs, prevIsWord =>
    if !prevIsWord then
      match matchPolite (c :: cs) with
      | some n => ' ' :: politeSubAux fuel (cs.drop (n - 1)) true
      | none => c :: politeSubAux fuel cs (isWordChar c)
    else c :: politeSubAux fuel cs (isWordChar c)

/-- The polite-tail removal step of `_heuristic_titles_from_prompt`. -/
def politeSub (s : String) : String :=
  String.mk (politeSubAux s.data.length s.data false)

/-- The deduplication loop of `_heuristic_titles_from_prompt` (`if c and c
not in seen`): keeps first occurrences, drops empty strings. -/
def dedupAux : List String → List String → List String
  | _, [] => []
  | seen, c :: cs =>
    if c ≠ "" && !seen.contains c then c :: dedupAux (c :: seen) cs
    else dedupAux seen cs

/-- `_heuristic_titles_from_prompt` from role_matcher.py: split before
normalising, clean each segment, keep 1–7-token candidates, repair missing
head nouns, deduplicate; fall back to the whole cleaned prompt when no
segment survives. -/
def _heuristic_titles_from_prompt (prompt : String) : List String :=
  let parts := (splitSegs prompt).filter (fun seg => seg ≠ "" && pyStrip seg ≠ "")
  let cands := parts.filterMap (fun part =>
    let norm := _normalize part
    let norm2 := politeSub norm
    let cand := _clean_head_tokens 7 norm2
    if 1 ≤ (pySplitWs cand).length && (pySplitWs cand).length ≤ 7 then
      some cand
    else none)
  if cands = [] then
    let whole := _clean_head_tokens 7 (_normalize prompt)
    if whole = "" then [] else [whole]
  else
    dedupAux [] (_attach_missing_head_noun cands)

/-- `extract_candidate_phrases(prompt, use_llm=False)` from role_matcher.py:
with the LLM path disabled it is exactly the heuristic splitter (the LLM
branch is an external collaborator and never taken on the verified path). -/
def extract_candidate_phrases (prompt : String) : List String :=
  _heuristic_titles_from_prompt prompt

/-! ## Knowledge-base store (load_kb and helpers) -/

/-- A raw KB index entry as stored in roles_kb.json / roles_kb_custom.json.
Only the fields the resolution engine reads are modelled: `id`, `title`,
`aliases`, `file` (all required by the code: missing ones raise KeyError)
and the optional `created_at`. -/
structure RawRecord where
  id : String
  title : String
  aliases : List String
  file : String
  created_at : Option String
deriving DecidableEq, Repr

/-- A KB record after `_map_files` and `_augment`: normalized search fields
and load-time metadata added. -/
structure KBRecord where
  id : String
  title : String
  aliases : List String
  file : String
  norm_title : String
  norm_aliases : List String
  match_corpus : List String
  is_custom : Bool
  created_at : Option String
deriving DecidableEq, Repr

/-- The path fix-up of `_map_files`: prefix `file` with `data/` unless it
already starts with it (a `pathlib` join discards the base for an absolute
path, hence the second case). -/
def _map_file (f : String) : String :=
  if f.startsWith "data/" then f
  else if f.startsWith "/" then f
  else "data/" ++ f

/-- `_augment` from role_matcher.py: compute `norm_title`, `norm_aliases`,
`match_corpus` (title first, then aliases), `is_custom` (substring test on
the file path) and carry `created_at` through. -/
def _augment (r : RawRecord) : KBRecord :=
  let nt := _normalize r.title
  let na := r.aliases.map _normalize
  { id := r.id
    title := r.title
    aliases := r.aliases
    file := r.file
    norm_title := nt
    norm_aliases := na
    match_corpus := nt :: na
    is_custom := decide ("role_knowledge_custom/".data <:+: r.file.data)
    created_at := r.created_at }

/-- State of one KB file on disk: absent, or present with the outcome of
`json.loads` on its text (the parser is the external `json` library, so it
is modelled by its result: a parse error or a list of raw records). -/
inductive KBFile where
  | absent
  | present (parse : Except String (List RawRecord))

/-- `json.loads(path.read_text()) if path.exists() else []`: an absent file
is an empty collection, a present file yields its parse outcome — a parse
error propagates as the exception `json.loads` raises. -/
def readKbFile : KBFile → Except String (List RawRecord)
  | .absent => .ok []
  | .present p => p

/-- `load_kb` from role_matcher.py: read curated then custom collection,
fix up file paths, concatenate curated-then-custom, and _augment every
record.  A `json.loads` failure in either file aborts the whole load. -/
def load_kb (core custom : KBFile) : Except String (List KBRecord) := do
  let c ← readKbFile core
  let u ← readKbFile custom
  let fix := fun (r : RawRecord) => { r with file := _map_file r.file }
  pure (((c.map fix) ++ (u.map fix)).map _augment)

/-! ## Fuzzy matcher (match_one)

`match_one` calls `rapidfuzz.process.extract` with
`scorer=fuzz.token_set_ratio`.  The scorer is an external library function,
so the embedding takes it as a parameter `scorer : String → String → ℚ`
(rapidfuzz guarantees its values lie in [0, 100]; theorems that need the
bound take it as a hypothesis).  `process.extract` returns the scored
candidates sorted by descending score, cut to `limit=10`; the Python code
carries `(text, score, index)` triples and immediately maps each index back
to its record, so the embedding carries `(score, record)` pairs directly.
The order among equal scores is implementation-defined in rapidfuzz and no
theorem below depends on it; here ties keep first-encountered order. -/

/-- A matcher suggestion dict: `{role_id, title, score, is_custom,
created_at}`. -/
structure Suggestion where
  role_id : String
  title : String
  score : ℚ
  is_custom : Bool
  created_at : Option String
deriving DecidableEq, Repr

/-- The `MatchResult` dataclass of role_matcher.py. -/
structure MatchResult where
  status : String
  role_id : Option String
  title : String
  file : Option String
  confidence : ℚ
  suggestions : List Suggestion
deriving DecidableEq, Repr

/-- Python `str.title()` on ASCII text: an alphabetic character is
uppercased after a non-cased character and lowercased after a cased one. -/
def pyTitleAux : Bool → List Char → List Char
  | _, [] => []
  | prevCased, c :: cs =>
    if c.isAlpha then
      (if prevCased then c.toLower else c.toUpper) :: pyTitleAux true cs
    else c :: pyTitleAux false cs

/-- Python `phrase.title()`. -/
def pyTitle (s : String) : String :=
  String.mk (pyTitleAux false s.data)

/-- Stable descending insertion by `key` (equal keys keep the existing
element first, matching Python's stable `sorted`). -/
def insertDescBy (key : α → ℚ) (x : α) : List α → List α
  | [] => [x]
  | y :: ys => if key y ≥ key x then y :: insertDescBy key x ys else x :: y :: ys

/-- Stable sort by descending `key` (Python `sorted(l, key=lambda x:
-key(x))`). -/
def sortDescBy (key : α → ℚ) : List α → List α
  | [] => []
  | x :: xs => insertDescBy key x (sortDescBy key xs)

/-- One step of the per-role aggregation loop of `match_one`:
`agg[rid] = max(agg.get(rid, 0.0), float(s))` on an insertion-ordered
association list (Python dicts preserve insertion order). -/
def aggInsert : List (String × ℚ) → String → ℚ → List (String × ℚ)
  | [], rid, s => [(rid, max 0 s)]
  | (k, v) :: rest, rid, s =>
    if k = rid then (k, max v s) :: rest
    else (k, v) :: aggInsert rest rid s

/-- The `(normalized text, record)` candidate pairs of `match_one`. -/
def choicesOf (kb : List KBRecord) : List (String × KBRecord) :=
  kb.flatMap (fun r => r.match_corpus.map (fun t => (t, r)))

/-- The top-10 scored candidates (`process.extract` with `limit=10`). -/
def topkOf (scorer : String → String → ℚ) (phrase : String)
    (kb : List KBRecord) : List (ℚ × KBRecord) :=
  ((sortDescBy Prod.fst ((choicesOf kb).map
      (fun c => (scorer phrase c.1, c.2))))).take 10

/-- The per-role aggregation of `match_one` (max score per role id, in
first-encountered order). -/
def aggOf (scorer : String → String → ℚ) (phrase : String)
    (kb : List KBRecord) : List (String × ℚ) :=
  (topkOf scorer phrase kb).foldl (fun acc sr => aggInsert acc sr.2.id sr.1) []

/-- `top3_ids`: the aggregated pairs ranked by descending score, cut to 3. -/
def top3Of (scorer : String → String → ℚ) (phrase : String)
    (kb : List KBRecord) : List (String × ℚ) :=
  (sortDescBy Prod.snd (aggOf scorer phrase kb)).take 3

/-- The loop body building one suggestion dict from an aggregated
`(rid, score)` pair: `rec = next(r for r in kb if r["id"] == rid)` followed
by the dict literal (native score divided by 100). -/
def mkSugg (kb : List KBRecord) (p : String × ℚ) : Option Suggestion :=
  (kb.find? (fun r => r.id = p.1)).map (fun rec =>
    { role_id := p.1
      title := rec.title
      score := p.2 / 100
      is_custom := rec.is_custom
      created_at := rec.created_at })

/-- The suggestion dicts built from `top3_ids`.  The Python code looks each
id up with `next(r for r in kb if r["id"] == rid)`; every id in `top3_ids`
originates from `kb`, so the lookup never fails and `filterMap` drops
nothing. -/
def suggestionsOf (scorer : String → String → ℚ) (phrase : String)
    (kb : List KBRecord) : List Suggestion :=
  (top3Of scorer phrase kb).filterMap (mkSugg kb)

/-- `best_score`: the top aggregated score divided by 100 (0.0 when there is
nothing). -/
def bestScoreOf (scorer : String → String → ℚ) (phrase : String)
    (kb : List KBRecord) : ℚ :=
  match (top3Of scorer phrase kb).head? with
  | some p => p.2 / 100
  | none => 0

/-- `match_one` from role_matcher.py: build the candidate set, score it,
aggregate per role id, rank, and classify as `suggest` (with the top-3
suggestions) or `unknown`. -/
def match_one (scorer : String → String → ℚ) (phrase : String)
    (kb : List KBRecord) (fuzzyThreshold : ℤ) : MatchResult :=
  if choicesOf kb = [] then
    ⟨"unknown", none, pyTitle phrase, none, 0, []⟩
  else if topkOf scorer phrase kb = [] then
    ⟨"unknown", none, pyTitle phrase, none, 0, []⟩
  else
    let suggestions := suggestionsOf scorer phrase kb
    let bestScore := bestScoreOf scorer phrase kb
    if bestScore < ((fuzzyThreshold : ℚ) - 20) / 100 ∧ suggestions = [] then
      ⟨"unknown", none, pyTitle phrase, none, bestScore, []⟩
    else
      ⟨"suggest", none, pyTitle phrase, none, bestScore, suggestions⟩

/-! ## Role-resolution state (graph/state.py) and intake node -/

/-- The `RoleSpec` pydantic model of graph/state.py (spec §9 unifies the
duck-typed role objects of the source into this one struct). -/
structure RoleSpec where
  role_id : Option String
  file : Option String
  title : String
  status : String
  confidence : Option ℚ
  confidence_source : Option String
  suggestions : List Suggestion
  must_haves : List String
  nice_to_haves : List String
  responsibilities : List String
  seniority : Option String
  function : Option String
  geo : Option String
deriving DecidableEq, Repr

/-- The slice of `AppState` (graph/state.py) the intake node and the
resolution panel read and write: the prompt and the role collection. -/
structure AppState where
  user_prompt : String
  roles : List RoleSpec
deriving DecidableEq, Repr

/-- The `RoleSpec(...)` constructed in `node_intake` from one `match_one`
result (all enrichable fields left at their pydantic defaults). -/
def roleSpecOfMatch (m : MatchResult) : RoleSpec :=
  { role_id := m.role_id
    file := m.file
    title := m.title
    status := m.status
    confidence := some m.confidence
    confidence_source := none
    suggestions := m.suggestions
    must_haves := []
    nice_to_haves := []
    responsibilities := []
    seniority := none
    function := none
    geo := none }

/-- Step 5 of `node_intake`: when nothing matched at all (no results, or
every result is non-`match` with no suggestions), append a `match`-status
RoleSpec for the KB's `founding_engineer` record when it exists. -/
def foundingFallback (kb : List KBRecord) (results : List RoleSpec) :
    List RoleSpec :=
  if results.isEmpty ||
      results.all (fun r => decide (r.status ≠ "match") && r.suggestions.isEmpty) then
    match kb.find? (fun k => k.id = "founding_engineer") with
    | some fb =>
      results ++ [{ role_id := some fb.id
                    file := some fb.file
                    title := fb.title
                    status := "match"
                    confidence := some 1
                    confidence_source := none
                    suggestions := []
                    must_haves := []
                    nice_to_haves := []
                    responsibilities := []
                    seniority := none
                    function := none
                    geo := none }]
    | none => results
  else results

/-- `node_intake` from graph/nodes.py on the verified path (the optional
LLM extraction branch is gated off, exactly as when no API key is present,
so extraction is the heuristic splitter): early-exit when the UI already
resolved roles, extract titles, match each against the freshly loaded KB
(`kb` stands for the `load_kb()` result), and apply the founding-engineer
safety net. -/
def node_intake (scorer : String → String → ℚ) (kb : List KBRecord)
    (state : AppState) : AppState :=
  if !state.roles.isEmpty then state
  else
    let titles := extract_candidate_phrases state.user_prompt
    let results := titles.map (fun t => roleSpecOfMatch (match_one scorer t kb 88))
    { state with roles := foundingFallback kb results }

/-! ## Unresolved-role panel (components/unresolved_role_panel.py) -/

/-- The `enumerate(all_roles)` loop collecting `used_ids` in
`unresolved_role_panel`, with `i` the running index. -/
def usedIdsAux (idx : Nat) : Nat → List RoleSpec → List String
  | _, [] => []
  | i, r :: rest =>
    let tail := usedIdsAux idx (i + 1) rest
    if i = idx then tail
    else if r.status = "match" then
      match r.role_id with
      | some rid => if rid = "" then tail else rid :: tail
      | none => tail
    else tail

/-- The `used_ids` set of `unresolved_role_panel`: role ids already finalized
(`status == "match"`) on a role other than the one at `idx`.  Python's
`if rid:` keeps only truthy ids, i.e. drops both `None` and `""`. -/
def usedIds (roles : List RoleSpec) (idx : Nat) : List String :=
  usedIdsAux idx 0 roles

/-- The filtered suggestion list the panel displays for the role at `idx`:
the matcher's raw suggestions minus every already-used role id. -/
def panelSuggestions (roles : List RoleSpec) (idx : Nat) : List Suggestion :=
  let raw := match roles.get? idx with
    | some r => r.suggestions
    | none => []
  raw.filter (fun s => !(decide (s.role_id ∈ usedIds roles idx)))

/-- The "Use selected suggestion" action of `unresolved_role_panel`: patch
the RoleSpec in place from the chosen suggestion `s`, looking its record up
in the freshly loaded KB.  The title falls back to the role's previous
title when the chosen one is empty (Python `(...) or title`). -/
def applyUseSuggestion (kb : List KBRecord) (role : RoleSpec)
    (s : Suggestion) : RoleSpec :=
  let rec? := kb.find? (fun r => r.id = s.role_id)
  let t0 := match rec? with
    | some rec => rec.title
    | none => s.title
  { role with
    role_id := some s.role_id
    title := if t0 = "" then role.title else t0
    status := "match"
    confidence := none
    confidence_source := some "manual"
    file := match rec? with | some rec => some rec.file | none => none
    suggestions := [] }

/-! ## Custom template writer (save_custom_role) -/

/-- A `datetime.utcnow()` value at the precision `save_custom_role` can
observe. -/
structure PyDateTime where
  year : Nat
  month : Nat
  day : Nat
  hour : Nat
  minute : Nat
  second : Nat
  microsecond : Nat
deriving DecidableEq, Repr

/-- Zero-padded decimal rendering (strftime field of width `w`). -/
def padNat (w n : Nat) : String :=
  let s := toString n
  String.mk (List.replicate (w - s.length) '0') ++ s

/-- `strftime("%Y%m%d_%H%M%S")`: second resolution only. -/
def strftimeTs (t : PyDateTime) : String :=
  padNat 4 t.year ++ padNat 2 t.month ++ padNat 2 t.day ++ "_" ++
  padNat 2 t.hour ++ padNat 2 t.minute ++ padNat 2 t.second

/-- `utcnow().replace(microsecond=0).isoformat() + "Z"`. -/
def isoSecondZ (t : PyDateTime) : String :=
  padNat 4 t.year ++ "-" ++ padNat 2 t.month ++ "-" ++ padNat 2 t.day ++ "T" ++
  padNat 2 t.hour ++ ":" ++ padNat 2 t.minute ++ ":" ++ padNat 2 t.second ++ "Z"

/-- Two timestamps falling within the same clock second (they may differ in
microseconds, which neither `%Y%m%d_%H%M%S` nor the second-truncated ISO
string can see). -/
def SameSecond (t u : PyDateTime) : Prop :=
  t.year = u.year ∧ t.month = u.month ∧ t.day = u.day ∧
  t.hour = u.hour ∧ t.minute = u.minute ∧ t.second = u.second

/-- `re.sub(r"[^\w]+", "_", s)`: collapse every non-word run to one `_`. -/
def collapseNonWordAux : Bool → List Char → List Char
  | _, [] => []
  | prev, c :: cs =>
    if isWordChar c then c :: collapseNonWordAux false cs
    else if prev then collapseNonWordAux true cs
    else '_' :: collapseNonWordAux true cs

/-- Python `s.strip("_")`. -/
def stripUnderscores (s : String) : String :=
  String.mk (((s.data.dropWhile (fun c => c = '_')).reverse.dropWhile
    (fun c => c = '_')).reverse)

/-- `_slugify` from role_matcher.py: normalize, spell out `+`/`#`, collapse
non-word runs to underscores, strip outer underscores. -/
def _slugify (title : String) : String :=
  let s := _normalize title
  let s := s.data.flatMap (fun c =>
    if c = '+' then "plus".data else if c = '#' then "sharp".data else [c])
  stripUnderscores (String.mk (collapseNonWordAux false s))

/-- The `save_custom_role` payload after the panel builds it; optional
fields model the `payload.get(..., default)` reads. -/
structure RolePayload where
  title : String
  aliases : List String
  function : Option String
  seniority : Option String
  skills_must : List String
  skills_nice : List String
  responsibilities : List String
  interview_loop : Option (List String)
  sourcing_tags : List String
deriving DecidableEq, Repr

/-- The template object `save_custom_role` writes to the new file. -/
structure CustomTemplate where
  id : String
  title : String
  aliases : List String
  function : String
  seniority : Option String
  skills_must : List String
  skills_nice : List String
  responsibilities : List String
  interview_loop : List String
  sourcing_tags : List String
  approved : Bool
  version : Nat
  created_at : String
deriving DecidableEq, Repr

/-- Return value of `save_custom_role`. -/
structure SavedRole where
  id : String
  file : String
  title : String
deriving DecidableEq, Repr

/-- The durable custom-role storage touched by `save_custom_role`: the
template files (path ↦ content) and the parsed custom KB index. -/
structure CustomStore where
  files : List (String × CustomTemplate)
  index : List RawRecord
deriving DecidableEq, Repr

/-- `_atomic_write` as observed through the file system: the rename lands
the full new content at `path`, replacing whatever was there. -/
def fsWrite (fs : List (String × CustomTemplate)) (path : String)
    (tpl : CustomTemplate) : List (String × CustomTemplate) :=
  (path, tpl) :: fs.filter (fun p => p.1 ≠ path)

/-- Read a template file back. -/
def fsRead (fs : List (String × CustomTemplate)) (path : String) :
    Option CustomTemplate :=
  (fs.find? (fun p => p.1 = path)).map (fun p => p.2)

/-- The timestamped final id of `save_custom_role`. -/
def customRoleId (now : PyDateTime) (title : String) : String :=
  _slugify (pyStrip title) ++ "__custom__" ++ strftimeTs now

/-- The template object one `save_custom_role` invocation writes, as a
function of the clock reading and the payload. -/
def customTemplateOf (now : PyDateTime) (p : RolePayload) : CustomTemplate :=
  { id := customRoleId now p.title
    title := pyStrip p.title
    aliases := p.aliases
    function := match p.function with | some f => f | none => "Engineering"
    seniority := p.seniority
    skills_must := p.skills_must
    skills_nice := p.skills_nice
    responsibilities := p.responsibilities
    interview_loop := match p.interview_loop with
      | some l => l
      | none => ["Screen","Tech Deep-Dive","System Design","Founder Chat","References"]
    sourcing_tags := p.sourcing_tags
    approved := false
    version := 1
    created_at := isoSecondZ now }

/-- The repo-root-relative path of the template file one invocation
writes (`DATA_DIR / "role_knowledge_custom/<final_slug>.json"`). -/
def customRolePath (now : PyDateTime) (title : String) : String :=
  "data/role_knowledge_custom/" ++ customRoleId now title ++ ".json"

/-- `save_custom_role` from role_matcher.py: build the timestamped id and
template, atomically write the template file under
`data/role_knowledge_custom/`, append the index entry (the index keeps the
fields the loader reads) and atomically rewrite the index.  `now` stands
for the two adjacent `datetime.utcnow()` calls of one invocation. -/
def save_custom_role (now : PyDateTime) (p : RolePayload)
    (store : CustomStore) : SavedRole × CustomStore :=
  let finalSlug := customRoleId now p.title
  let tpl := customTemplateOf now p
  let files' := fsWrite store.files (customRolePath now p.title) tpl
  let entry : RawRecord :=
    { id := finalSlug
      title := pyStrip p.title
      aliases := tpl.aliases
      file := "role_knowledge_custom/" ++ finalSlug ++ ".json"
      created_at := some (isoSecondZ now) }
  (⟨finalSlug, customRolePath now p.title, pyStrip p.title⟩,
   ⟨files', store.index ++ [entry]⟩)

/-! ## Lemmas about the ranking machinery -/

theorem mem_insertDescBy {α : Type} {key : α → ℚ} {x a : α} {l : List α} :
    a ∈ insertDescBy key x l ↔ a = x ∨ a ∈ l := by
  induction l with
  | nil => simp [insertDescBy]
  | cons y ys ih =>
    simp only [insertDescBy]
    split
    · simp only [List.mem_cons, ih]
      tauto
    · simp only [List.mem_cons]

theorem mem_sortDescBy {α : Type} {key : α → ℚ} {a : α} {l : List α} :
    a ∈ sortDescBy key l ↔ a ∈ l := by
  induction l with
  | nil => simp [sortDescBy]
  | cons y ys ih =>
    simp only [sortDescBy, mem_insertDescBy, List.mem_cons, ih]

theorem pairwise_insertDescBy {α : Type} {key : α → ℚ} {x : α} {l : List α}
    (h : l.Pairwise (fun a b => key a ≥ key b)) :
    (insertDescBy key x l).Pairwise (fun a b => key a ≥ key b) := by
  induction l with
  | nil => simp [insertDescBy]
  | cons y ys ih =>
    rw [List.pairwise_cons] at h
    simp only [insertDescBy]
    split
    · rename_i hge
      rw [List.pairwise_cons]
      refine ⟨fun a ha => ?_, ih h.2⟩
      rcases mem_insertDescBy.mp ha with rfl | hmem
      · exact hge
      · exact h.1 a hmem
    · rename_i hlt
      push_neg at hlt
      rw [List.pairwise_cons]
      refine ⟨fun a ha => ?_, List.pairwise_cons.mpr h⟩
      rcases List.mem_cons.mp ha with rfl | hmem
      · exact le_of_lt hlt
      · exact le_trans (h.1 a hmem) (le_of_lt hlt)

theorem pairwise_sortDescBy {α : Type} (key : α → ℚ) (l : List α) :
    (sortDescBy key l).Pairwise (fun a b => key a ≥ key b) := by
  induction l with
  | nil => simp [sortDescBy]
  | cons y ys ih => exact pairwise_insertDescBy ih

theorem length_insertDescBy {α : Type} (key : α → ℚ) (x : α) (l : List α) :
    (insertDescBy key x l).length = l.length + 1 := by
  induction l with
  | nil => rfl
  | cons y ys ih =>
    simp only [insertDescBy]
    split <;> simp [ih]

theorem length_sortDescBy {α : Type} (key : α → ℚ) (l : List α) :
    (sortDescBy key l).length = l.length := by
  induction l with
  | nil => rfl
  | cons y ys ih => simp [sortDescBy, length_insertDescBy, ih]

theorem aggInsert_ne_nil (acc : List (String × ℚ)) (rid : String) (s : ℚ) :
    aggInsert acc rid s ≠ [] := by
  match acc with
  | [] => simp [aggInsert]
  | (k, v) :: rest =>
    simp only [aggInsert]
    split <;> simp

theorem aggInsert_mem_cases {acc : List (String × ℚ)} {rid : String} {s : ℚ}
    {kv : String × ℚ} (h : kv ∈ aggInsert acc rid s) :
    kv ∈ acc ∨ (kv.1 = rid ∧ kv.2 = max 0 s) ∨
      ∃ v, (rid, v) ∈ acc ∧ kv = (rid, max v s) := by
  induction acc with
  | nil =>
    simp only [aggInsert, List.mem_singleton] at h
    subst h
    exact Or.inr (Or.inl ⟨rfl, rfl⟩)
  | cons hd tl ih =>
    obtain ⟨k, v⟩ := hd
    simp only [aggInsert] at h
    split at h
    · rename_i hk
      subst hk
      rcases List.mem_cons.mp h with rfl | hmem
      · exact Or.inr (Or.inr ⟨v, List.mem_cons_self _ _, rfl⟩)
      · exact Or.inl (List.mem_cons_of_mem _ hmem)
    · rcases List.mem_cons.mp h with rfl | hmem
      · exact Or.inl (List.mem_cons_self _ _)
      · rcases ih hmem with h1 | h2 | ⟨w, hw, hkv⟩
        · exact Or.inl (List.mem_cons_of_mem _ h1)
        · exact Or.inr (Or.inl h2)
        · exact Or.inr (Or.inr ⟨w, List.mem_cons_of_mem _ hw, hkv⟩)

/-- The aggregation fold never loses the accumulator's nonemptiness. -/
theorem foldl_aggInsert_ne_nil :
    ∀ (l : List (ℚ × KBRecord)) (acc : List (String × ℚ)),
      acc ≠ [] ∨ l ≠ [] →
      l.foldl (fun acc sr => aggInsert acc sr.2.id sr.1) acc ≠ [] := by
  intro l
  induction l with
  | nil =>
    intro acc h
    simpa using h.resolve_right (by simp)
  | cons x xs ih =>
    intro acc _
    simp only [List.foldl_cons]
    exact ih _ (Or.inl (aggInsert_ne_nil _ _ _))

/-- Every aggregated value stays within the scorer's range `[0, 100]`
(the fold seeds with `max 0 s` and only ever takes maxima). -/
theorem foldl_aggInsert_bounds :
    ∀ (l : List (ℚ × KBRecord)) (acc : List (String × ℚ)),
      (∀ kv ∈ acc, 0 ≤ kv.2 ∧ kv.2 ≤ 100) →
      (∀ sr ∈ l, 0 ≤ sr.1 ∧ sr.1 ≤ 100) →
      ∀ kv ∈ l.foldl (fun acc sr => aggInsert acc sr.2.id sr.1) acc,
        0 ≤ kv.2 ∧ kv.2 ≤ 100 := by
  intro l
  induction l with
  | nil => intro acc hacc _ kv hkv; exact hacc kv hkv
  | cons x xs ih =>
    intro acc hacc hl kv hkv
    simp only [List.foldl_cons] at hkv
    have hx := hl x (List.mem_cons_self _ _)
    refine ih _ ?_ (fun sr hsr => hl sr (List.mem_cons_of_mem _ hsr)) kv hkv
    intro kv' hkv'
    rcases aggInsert_mem_cases hkv' with h1 | ⟨_, h2⟩ | ⟨v, hv, rfl⟩
    · exact hacc kv' h1
    · rw [h2]
      exact ⟨le_max_left _ _, max_le (by norm_num) hx.2⟩
    · refine ⟨le_trans (hacc (_, v) hv).1 (le_max_left _ _), ?_⟩
      exact max_le (hacc (_, v) hv).2 hx.2

/-- Every aggregated id originates in a KB record. -/
theorem foldl_aggInsert_ids (kb : List KBRecord) :
    ∀ (l : List (ℚ × KBRecord)) (acc : List (String × ℚ)),
      (∀ kv ∈ acc, ∃ r ∈ kb, r.id = kv.1) →
      (∀ sr ∈ l, sr.2 ∈ kb) →
      ∀ kv ∈ l.foldl (fun acc sr => aggInsert acc sr.2.id sr.1) acc,
        ∃ r ∈ kb, r.id = kv.1 := by
  intro l
  induction l with
  | nil => intro acc hacc _ kv hkv; exact hacc kv hkv
  | cons x xs ih =>
    intro acc hacc hl kv hkv
    simp only [List.foldl_cons] at hkv
    have hx := hl x (List.mem_cons_self _ _)
    refine ih _ ?_ (fun sr hsr => hl sr (List.mem_cons_of_mem _ hsr)) kv hkv
    intro kv' hkv'
    rcases aggInsert_mem_cases hkv' with h1 | ⟨h2, _⟩ | ⟨v, _, rfl⟩
    · exact hacc kv' h1
    · exact ⟨x.2, hx, h2.symm⟩
    · exact ⟨x.2, hx, rfl⟩

/-- Every element of the top-10 list pairs a score produced by the scorer
with a record of the KB. -/
theorem topkOf_mem {scorer : String → String → ℚ} {phrase : String}
    {kb : List KBRecord} {sr : ℚ × KBRecord} (h : sr ∈ topkOf scorer phrase kb) :
    sr.2 ∈ kb ∧ ∃ t, sr.1 = scorer phrase t := by
  have h1 : sr ∈ sortDescBy Prod.fst ((choicesOf kb).map
      (fun c => (scorer phrase c.1, c.2))) := List.mem_of_mem_take h
  have h2 := mem_sortDescBy.mp h1
  obtain ⟨c, hc, hceq⟩ := List.mem_map.mp h2
  obtain ⟨r, hr, hcr⟩ := List.mem_flatMap.mp hc
  obtain ⟨t, _, hteq⟩ := List.mem_map.mp hcr
  subst hceq
  refine ⟨?_, t, ?_⟩
  · rw [← hteq]
    exact hr
  · rw [← hteq]

theorem aggOf_mem_bounds {scorer : String → String → ℚ} {phrase : String}
    {kb : List KBRecord} (hs : ∀ p t, 0 ≤ scorer p t ∧ scorer p t ≤ 100) :
    ∀ kv ∈ aggOf scorer phrase kb, 0 ≤ kv.2 ∧ kv.2 ≤ 100 := by
  intro kv hkv
  refine foldl_aggInsert_bounds _ [] (by simp) ?_ kv hkv
  intro sr hsr
  obtain ⟨_, t, ht⟩ := topkOf_mem hsr
  rw [ht]
  exact hs phrase t

theorem aggOf_mem_ids {scorer : String → String → ℚ} {phrase : String}
    {kb : List KBRecord} :
    ∀ kv ∈ aggOf scorer phrase kb, ∃ r ∈ kb, r.id = kv.1 := by
  intro kv hkv
  refine foldl_aggInsert_ids kb _ [] (by simp) ?_ kv hkv
  intro sr hsr
  exact (topkOf_mem hsr).1

theorem top3Of_subset_agg {scorer : String → String → ℚ} {phrase : String}
    {kb : List KBRecord} {p : String × ℚ} (h : p ∈ top3Of scorer phrase kb) :
    p ∈ aggOf scorer phrase kb :=
  mem_sortDescBy.mp (List.mem_of_mem_take h)

theorem top3Of_sorted (scorer : String → String → ℚ) (phrase : String)
    (kb : List KBRecord) :
    (top3Of scorer phrase kb).Pairwise (fun a b => a.2 ≥ b.2) :=
  List.Pairwise.sublist (List.take_sublist _ _) (pairwise_sortDescBy Prod.snd _)

theorem mkSugg_some {kb : List KBRecord} {p : String × ℚ} {s : Suggestion}
    (h : mkSugg kb p = some s) : s.score = p.2 / 100 ∧ s.role_id = p.1 := by
  unfold mkSugg at h
  cases hf : kb.find? (fun r => r.id = p.1) with
  | none => rw [hf] at h; simp at h
  | some rec =>
    rw [hf] at h
    simp only [Option.map_some', Option.some.injEq] at h
    rw [← h]
    exact ⟨rfl, rfl⟩

theorem suggestionsOf_len_le (scorer : String → String → ℚ) (phrase : String)
    (kb : List KBRecord) : (suggestionsOf scorer phrase kb).length ≤ 3 := by
  unfold suggestionsOf
  refine le_trans (List.length_filterMap_le _ _) ?_
  unfold top3Of
  exact List.length_take_le _ _

theorem suggestionsOf_sorted (scorer : String → String → ℚ) (phrase : String)
    (kb : List KBRecord) :
    (suggestionsOf scorer phrase kb).Pairwise (fun a b => a.score ≥ b.score) := by
  unfold suggestionsOf
  rw [List.pairwise_filterMap]
  refine (top3Of_sorted scorer phrase kb).imp ?_
  intro p q hpq s hs u hu
  rw [Option.mem_def] at hs hu
  rw [(mkSugg_some hs).1, (mkSugg_some hu).1]
  have hq : q.2 ≤ p.2 := hpq
  linarith

theorem suggestionsOf_mem_score {scorer : String → String → ℚ}
    {phrase : String} {kb : List KBRecord} {s : Suggestion}
    (h : s ∈ suggestionsOf scorer phrase kb) :
    ∃ p ∈ top3Of scorer phrase kb, s.score = p.2 / 100 := by
  obtain ⟨p, hp, hmk⟩ := List.mem_filterMap.mp h
  exact ⟨p, hp, (mkSugg_some hmk).1⟩

theorem take_ne_nil_of_ne_nil {α : Type} {l : List α} (h : l ≠ []) {n : Nat}
    (hn : n ≠ 0) : l.take n ≠ [] := by
  cases l with
  | nil => exact absurd rfl h
  | cons x xs =>
    cases n with
    | zero => exact absurd rfl hn
    | succ m => simp

theorem ne_nil_of_length_eq {α β : Type} {l : List α} {l' : List β}
    (h : l.length = l'.length) (hne : l' ≠ []) : l ≠ [] := by
  intro hl
  subst hl
  exact hne (List.eq_nil_of_length_eq_zero h.symm)

/-- Every record produced by `_augment` has a nonempty match corpus (the
normalized title is always its first element). -/
theorem choicesOf_augment_ne_nil {raws : List RawRecord} (h : raws ≠ []) :
    choicesOf (raws.map _augment) ≠ [] := by
  cases raws with
  | nil => exact absurd rfl h
  | cons r rest =>
    simp [choicesOf, _augment]

theorem topkOf_ne_nil {scorer : String → String → ℚ} {phrase : String}
    {kb : List KBRecord} (h : choicesOf kb ≠ []) :
    topkOf scorer phrase kb ≠ [] := by
  unfold topkOf
  refine take_ne_nil_of_ne_nil ?_ (by norm_num)
  refine ne_nil_of_length_eq ?_ h
  rw [length_sortDescBy, List.length_map]

theorem aggOf_ne_nil {scorer : String → String → ℚ} {phrase : String}
    {kb : List KBRecord} (h : choicesOf kb ≠ []) :
    aggOf scorer phrase kb ≠ [] :=
  foldl_aggInsert_ne_nil _ [] (Or.inr (topkOf_ne_nil h))

theorem top3Of_ne_nil {scorer : String → String → ℚ} {phrase : String}
    {kb : List KBRecord} (h : choicesOf kb ≠ []) :
    top3Of scorer phrase kb ≠ [] := by
  unfold top3Of
  refine take_ne_nil_of_ne_nil ?_ (by norm_num)
  refine ne_nil_of_length_eq ?_ (@aggOf_ne_nil scorer phrase kb h)
  rw [length_sortDescBy]

/-- `mkSugg` succeeds on every aggregated pair: its id always names a KB
record, so the `next(...)` lookup of the source cannot fail. -/
theorem mkSugg_isSome_of_mem {scorer : String → String → ℚ} {phrase : String}
    {kb : List KBRecord} {p : String × ℚ} (hp : p ∈ top3Of scorer phrase kb) :
    (mkSugg kb p).isSome := by
  obtain ⟨r, hr, hid⟩ := aggOf_mem_ids p (top3Of_subset_agg hp)
  unfold mkSugg
  rw [Option.isSome_map']
  rw [List.find?_isSome]
  exact ⟨r, hr, by simp [hid]⟩

theorem suggestionsOf_ne_nil {scorer : String → String → ℚ} {phrase : String}
    {kb : List KBRecord} (h : choicesOf kb ≠ []) :
    suggestionsOf scorer phrase kb ≠ [] := by
  unfold suggestionsOf
  cases ht : top3Of scorer phrase kb with
  | nil => exact absurd ht (top3Of_ne_nil h)
  | cons p rest =>
    have hp : p ∈ top3Of scorer phrase kb := by rw [ht]; exact List.mem_cons_self _ _
    have hsome := mkSugg_isSome_of_mem hp
    rw [List.filterMap_cons]
    cases hmk : mkSugg kb p with
    | none => rw [hmk] at hsome; simp at hsome
    | some s => simp

theorem bestScoreOf_bounds {scorer : String → String → ℚ} {phrase : String}
    {kb : List KBRecord} (hs : ∀ p t, 0 ≤ scorer p t ∧ scorer p t ≤ 100) :
    0 ≤ bestScoreOf scorer phrase kb ∧ bestScoreOf scorer phrase kb ≤ 1 := by
  unfold bestScoreOf
  cases ht : (top3Of scorer phrase kb).head? with
  | none => norm_num
  | some p =>
    have hp : p ∈ top3Of scorer phrase kb := by
      cases htl : top3Of scorer phrase kb with
      | nil => rw [htl] at ht; simp at ht
      | cons q rest =>
        rw [htl] at ht
        simp only [List.head?_cons, Option.some.injEq] at ht
        subst ht
        exact List.mem_cons_self _ _
    have hb := aggOf_mem_bounds hs p (top3Of_subset_agg hp)
    constructor
    · exact div_nonneg hb.1 (by norm_num)
    · rw [div_le_one (by norm_num)]
      linarith [hb.2]

theorem suggestionsOf_score_bounds {scorer : String → String → ℚ}
    {phrase : String} {kb : List KBRecord}
    (hs : ∀ p t, 0 ≤ scorer p t ∧ scorer p t ≤ 100) :
    ∀ s ∈ suggestionsOf scorer phrase kb, 0 ≤ s.score ∧ s.score ≤ 1 := by
  intro s hmem
  obtain ⟨p, hp, hsc⟩ := suggestionsOf_mem_score hmem
  have hb := aggOf_mem_bounds hs p (top3Of_subset_agg hp)
  rw [hsc]
  constructor
  · exact div_nonneg hb.1 (by norm_num)
  · rw [div_le_one (by norm_num)]
    linarith [hb.2]

/-! ## Concrete material used by the witness theorems -/

/-- A concrete stand-in for the external token-set scorer, used only to
instantiate theorems that hold for every scorer. -/
def exScorer (p t : String) : ℚ :=
  if p = t then 100 else 0

theorem exScorer_bounds : ∀ p t, 0 ≤ exScorer p t ∧ exScorer p t ≤ 100 := by
  intro p t
  unfold exScorer
  split_ifs <;> norm_num

/-- The curated founding-engineer index entry (data/roles_kb.json). -/
def exRawFounding : RawRecord :=
  ⟨"founding_engineer", "Founding Engineer", ["founder engineer"],
   "role_knowledge/founding_engineer.json", none⟩

/-- The curated GenAI-intern index entry (data/roles_kb.json). -/
def exRawIntern : RawRecord :=
  ⟨"genai_intern", "GenAI Intern", ["gen ai intern"],
   "role_knowledge/genai_intern.json", none⟩

/-- The merged KB of the two curated example records. -/
def exKb : List KBRecord :=
  [exRawFounding, exRawIntern].map _augment

/-! ## Claim theorems -/

/-- C10: for every phrase, KB and threshold, `match_one` returns
`role_id=None` and `file=None` — resolution identifiers travel only inside
the suggestion dicts — and the returned `title` is the input phrase
title-cased (`phrase.title()`).  This holds on every branch, including an
exact title/alias hit with score 1.0, which is covered by the universal
quantification over scorers and phrases. -/
theorem matchOne_never_resolves (scorer : String → String → ℚ)
    (phrase : String) (kb : List KBRecord) (thr : ℤ) :
    (match_one scorer phrase kb thr).role_id = none ∧
    (match_one scorer phrase kb thr).file = none ∧
    (match_one scorer phrase kb thr).title = pyTitle phrase := by
  unfold match_one
  dsimp only
  split_ifs <;> exact ⟨rfl, rfl, rfl⟩

/-- C10 witness: an exact-hit phrase (the scorer returns 100 on the record's
normalized title) still comes back with `role_id=None`, `file=None`, and
the title-cased input. -/
theorem matchOne_never_resolves_witness :
    (match_one exScorer "founding engineer" exKb 88).role_id = none ∧
    (match_one exScorer "founding engineer" exKb 88).file = none ∧
    (match_one exScorer "founding engineer" exKb 88).title =
      pyTitle "founding engineer" :=
  matchOne_never_resolves exScorer "founding engineer" exKb 88

/-- C6: on an empty KB, `match_one` returns status `unknown`, confidence
0.0 and no suggestions, for every phrase and threshold.  The embedding is a
total function, so no exception is possible on this path (the Python body
returns before any fallible operation). -/
theorem matchOne_empty_kb (scorer : String → String → ℚ) (phrase : String)
    (thr : ℤ) :
    match_one scorer phrase [] thr =
      ⟨"unknown", none, pyTitle phrase, none, 0, []⟩ := rfl

/-- C6 witness: the empty-KB behaviour at a concrete phrase. -/
theorem matchOne_empty_kb_witness :
    match_one exScorer "genai intern" [] 88 =
      ⟨"unknown", none, pyTitle "genai intern", none, 0, []⟩ :=
  matchOne_empty_kb exScorer "genai intern" 88

/-- C5: every `match_one` result carries at most 3 suggestions, their
scores are non-increasing in list order, and — provided the underlying
metric stays in its native 0–100 range, as rapidfuzz guarantees — every
suggestion score and the returned confidence lie in [0, 1], the native
score having been divided by 100. -/
theorem matchOne_suggestion_contract (scorer : String → String → ℚ)
    (phrase : String) (kb : List KBRecord) (thr : ℤ)
    (hs : ∀ p t, 0 ≤ scorer p t ∧ scorer p t ≤ 100) :
    (match_one scorer phrase kb thr).suggestions.length ≤ 3 ∧
    (match_one scorer phrase kb thr).suggestions.Pairwise
      (fun a b => a.score ≥ b.score) ∧
    (∀ s ∈ (match_one scorer phrase kb thr).suggestions,
      0 ≤ s.score ∧ s.score ≤ 1) ∧
    0 ≤ (match_one scorer phrase kb thr).confidence ∧
    (match_one scorer phrase kb thr).confidence ≤ 1 := by
  unfold match_one
  dsimp only
  split_ifs
  · simp
  · simp
  · refine ⟨by simp, by simp, by simp, ?_⟩
    exact bestScoreOf_bounds hs
  · refine ⟨suggestionsOf_len_le scorer phrase kb,
      suggestionsOf_sorted scorer phrase kb,
      suggestionsOf_score_bounds hs, ?_⟩
    exact bestScoreOf_bounds hs

/-- C5 witness: the contract instantiated at a concrete scorer, phrase and
KB. -/
theorem matchOne_suggestion_contract_witness :
    (match_one exScorer "founding engineer"
        ([exRawFounding, exRawIntern].map _augment) 88).suggestions.length ≤ 3 ∧
    (match_one exScorer "founding engineer"
        ([exRawFounding, exRawIntern].map _augment) 88).suggestions.Pairwise
      (fun a b => a.score ≥ b.score) ∧
    (∀ s ∈ (match_one exScorer "founding engineer"
        ([exRawFounding, exRawIntern].map _augment) 88).suggestions,
      0 ≤ s.score ∧ s.score ≤ 1) ∧
    0 ≤ (match_one exScorer "founding engineer"
        ([exRawFounding, exRawIntern].map _augment) 88).confidence ∧
    (match_one exScorer "founding engineer"
        ([exRawFounding, exRawIntern].map _augment) 88).confidence ≤ 1 :=
  matchOne_suggestion_contract exScorer "founding engineer"
    ([exRawFounding, exRawIntern].map _augment) 88 exScorer_bounds

/-- C3: over a non-empty KB (any list of loaded-and-augmented records),
`match_one` classifies `unknown` exactly when the best aggregated score is
below the threshold percentage and no suggestions exist at all — a
conjunction that never holds there, because a non-empty KB always yields at
least one suggestion — so the result is always `suggest`, carrying the
top-3 suggestion list. -/
theorem matchOne_classification (scorer : String → String → ℚ)
    (phrase : String) (thr : ℤ) (raws : List RawRecord) (hne : raws ≠ []) :
    ((match_one scorer phrase (raws.map _augment) thr).status = "unknown" ↔
      ((match_one scorer phrase (raws.map _augment) thr).confidence <
          (thr : ℚ) / 100 ∧
       (match_one scorer phrase (raws.map _augment) thr).suggestions = [])) ∧
    (match_one scorer phrase (raws.map _augment) thr).status = "suggest" ∧
    (match_one scorer phrase (raws.map _augment) thr).suggestions =
      suggestionsOf scorer phrase (raws.map _augment) := by
  have hch := choicesOf_augment_ne_nil hne
  have hsug := @suggestionsOf_ne_nil scorer phrase (raws.map _augment) hch
  unfold match_one
  dsimp only
  rw [if_neg hch, if_neg (topkOf_ne_nil hch), if_neg (fun h => hsug h.2)]
  refine ⟨?_, rfl, rfl⟩
  constructor
  · intro h
    exact absurd h (by simp)
  · intro h
    exact absurd h.2 hsug

/-- C3 witness: the classification theorem at a concrete phrase and KB. -/
theorem matchOne_classification_witness :
    ((match_one exScorer "founding engineer"
        ([exRawFounding].map _augment) 88).status = "unknown" ↔
      ((match_one exScorer "founding engineer"
          ([exRawFounding].map _augment) 88).confidence < (88 : ℤ) / 100 ∧
       (match_one exScorer "founding engineer"
          ([exRawFounding].map _augment) 88).suggestions = [])) ∧
    (match_one exScorer "founding engineer"
        ([exRawFounding].map _augment) 88).status = "suggest" ∧
    (match_one exScorer "founding engineer"
        ([exRawFounding].map _augment) 88).suggestions =
      suggestionsOf exScorer "founding engineer" ([exRawFounding].map _augment) :=
  matchOne_classification exScorer "founding engineer" 88 [exRawFounding]
    (List.cons_ne_nil _ _)

/-- A finalized role at absolute position `j` with a truthy id lands that id
in the `used_ids` of a panel at another index (`i` is the running index of
the `enumerate` loop). -/
theorem mem_usedIdsAux {idx : Nat} {rid : String} :
    ∀ (roles : List RoleSpec) (i j : Nat) (r : RoleSpec),
      roles.get? j = some r → i + j ≠ idx → r.status = "match" →
      r.role_id = some rid → rid ≠ "" →
      rid ∈ usedIdsAux idx i roles := by
  intro roles
  induction roles with
  | nil => intro i j r hj; simp at hj
  | cons hd tl ih =>
    intro i j r hj hne hst hrid hr
    cases j with
    | zero =>
      simp only [List.get?_cons_zero, Option.some.injEq] at hj
      subst hj
      simp only [usedIdsAux, hrid]
      rw [if_neg (show ¬ i = idx from by omega), if_pos hst, if_neg hr]
      exact List.mem_cons_self _ _
    | succ m =>
      have htail : rid ∈ usedIdsAux idx (i + 1) tl := by
        refine ih (i + 1) m r ?_ (by omega) hst hrid hr
        simpa using hj
      simp only [usedIdsAux]
      split
      · exact htail
      · split
        · cases hro : hd.role_id with
          | none => simp only [hro]; exact htail
          | some rid' =>
            simp only [hro]
            split
            · exact htail
            · exact List.mem_cons_of_mem _ htail
        · exact htail

/-- C7: the suggestion list the panel presents for the pending RoleRequest
at `idx` contains no role id already finalized (`status="match"`, truthy
`role_id`, per the source's `if rid:`) on a different RoleRequest of the
same session.  The filtering is done by the panel at presentation time
(`panelSuggestions`); `match_one` takes no session state at all, so the
matcher itself cannot perform it. -/
theorem panel_excludes_finalized (roles : List RoleSpec) (idx j : Nat)
    (r : RoleSpec) (rid : String) (s : Suggestion)
    (hj : roles.get? j = some r) (hne : j ≠ idx) (hst : r.status = "match")
    (hrid : r.role_id = some rid) (htruthy : rid ≠ "")
    (hs : s ∈ panelSuggestions roles idx) : s.role_id ≠ rid := by
  have hmem : rid ∈ usedIds roles idx :=
    mem_usedIdsAux roles 0 j r hj (by omega) hst hrid htruthy
  unfold panelSuggestions at hs
  have hflt := (List.mem_filter.mp hs).2
  intro heq
  rw [heq] at hflt
  simp [hmem] at hflt

/-- Two concrete session roles: one finalized to `founding_engineer`, one
pending with two suggestions (one of them for the already-taken id). -/
def exMatchedRole : RoleSpec :=
  { role_id := some "founding_engineer"
    file := some "data/role_knowledge/founding_engineer.json"
    title := "Founding Engineer"
    status := "match"
    confidence := none
    confidence_source := some "manual"
    suggestions := []
    must_haves := []
    nice_to_haves := []
    responsibilities := []
    seniority := none
    function := none
    geo := none }

/-- A pending role whose matcher suggestions include the taken id. -/
def exPendingRole : RoleSpec :=
  { role_id := none
    file := none
    title := "Platform Engineer"
    status := "suggest"
    confidence := some (92 / 100)
    confidence_source := none
    suggestions :=
      [⟨"founding_engineer", "Founding Engineer", 92 / 100, false, none⟩,
       ⟨"genai_intern", "GenAI Intern", 55 / 100, false, none⟩]
    must_haves := []
    nice_to_haves := []
    responsibilities := []
    seniority := none
    function := none
    geo := none }

/-- C7 witness: in the concrete two-role session, the suggestion that
survives the panel filter for the pending role does not carry the id
finalized on the other role. -/
theorem panel_excludes_finalized_witness :
    (⟨"genai_intern", "GenAI Intern", 55 / 100, false, none⟩ : Suggestion).role_id ≠
      "founding_engineer" :=
  panel_excludes_finalized [exMatchedRole, exPendingRole] 1 0 exMatchedRole
    "founding_engineer" ⟨"genai_intern", "GenAI Intern", 55 / 100, false, none⟩
    rfl (by decide) rfl rfl (by decide)
    (by
      rw [show panelSuggestions [exMatchedRole, exPendingRole] 1 =
        [⟨"genai_intern", "GenAI Intern", 55 / 100, false, none⟩] from rfl]
      exact List.mem_cons_self _ _)

/-- A concrete accepted suggestion (score 0.97). -/
def exSugg : Suggestion :=
  ⟨"founding_engineer", "Founding Engineer", 97 / 100, false, none⟩

/-- C1 counterexample: accepting a suggestion does NOT set
`confidence_source="auto"` with `confidence=` the suggestion's score, as
the claim states — the handler explicitly marks the pick `manual` and
clears the confidence (`set_field(role, "confidence", None)`,
`set_field(role, "confidence_source", "manual")`). -/
theorem acceptSuggestion_auto_confidence_cex :
    ¬ ((applyUseSuggestion exKb exPendingRole exSugg).confidence_source =
        some "auto" ∧
       (applyUseSuggestion exKb exPendingRole exSugg).confidence =
        some exSugg.score) := by
  intro h
  have hcs : (applyUseSuggestion exKb exPendingRole exSugg).confidence_source =
      some "manual" := rfl
  rw [hcs] at h
  exact absurd h.1 (by decide)

/-- C1 as amended: accepting a suggestion from state `unknown` or `suggest`
finalizes the request to `match` with `roleId` from the suggestion and
`title`/`file` from the chosen KB record, but with
`confidenceSource=manual` and `confidence` cleared to `None` (no score is
carried over), and the pending suggestions emptied. -/
theorem acceptSuggestion_manual_pick (kb : List KBRecord) (role : RoleSpec)
    (s : Suggestion) (rec : KBRecord)
    (_hstatus : role.status = "unknown" ∨ role.status = "suggest")
    (hrec : kb.find? (fun r => r.id = s.role_id) = some rec)
    (ht : rec.title ≠ "") :
    applyUseSuggestion kb role s =
      { role with
        role_id := some s.role_id
        title := rec.title
        status := "match"
        confidence := none
        confidence_source := some "manual"
        file := some rec.file
        suggestions := [] } := by
  unfold applyUseSuggestion
  rw [hrec]
  dsimp only
  rw [if_neg ht]

/-- C1 witness: the amended transition at concrete inputs. -/
theorem acceptSuggestion_manual_pick_witness :
    applyUseSuggestion exKb exPendingRole exSugg =
      { exPendingRole with
        role_id := some exSugg.role_id
        title := (_augment exRawFounding).title
        status := "match"
        confidence := none
        confidence_source := some "manual"
        file := some (_augment exRawFounding).file
        suggestions := [] } :=
  acceptSuggestion_manual_pick exKb exPendingRole exSugg
    (_augment exRawFounding) (Or.inr rfl) rfl (by decide)

/-- C9: when intake extraction produces no title that yields a `match`
status or any suggestion (or no results at all), and the merged KB contains
a `founding_engineer` record, `node_intake` appends a RoleSpec for that
record with `status="match"` and `confidence=1.0` — entirely inside the
intake node, with no operator involved. -/
theorem nodeIntake_founding_fallback (scorer : String → String → ℚ)
    (kb : List KBRecord) (prompt : String) (fb : KBRecord)
    (hfb : kb.find? (fun k => k.id = "founding_engineer") = some fb)
    (hcond : (((extract_candidate_phrases prompt).map
        (fun t => roleSpecOfMatch (match_one scorer t kb 88))).isEmpty ||
      ((extract_candidate_phrases prompt).map
        (fun t => roleSpecOfMatch (match_one scorer t kb 88))).all
        (fun r => decide (r.status ≠ "match") && r.suggestions.isEmpty)) = true) :
    (node_intake scorer kb ⟨prompt, []⟩).roles =
      ((extract_candidate_phrases prompt).map
        (fun t => roleSpecOfMatch (match_one scorer t kb 88))) ++
      [{ role_id := some fb.id
         file := some fb.file
         title := fb.title
         status := "match"
         confidence := some 1
         confidence_source := none
         suggestions := []
         must_haves := []
         nice_to_haves := []
         responsibilities := []
         seniority := none
         function := none
         geo := none }] := by
  show (foundingFallback kb ((extract_candidate_phrases prompt).map
      (fun t => roleSpecOfMatch (match_one scorer t kb 88)))) = _
  unfold foundingFallback
  rw [if_pos hcond, hfb]

/-- C9 witness: on the empty prompt, extraction yields no titles, so the
concrete KB's founding-engineer record is appended automatically. -/
theorem nodeIntake_founding_fallback_witness :
    (node_intake exScorer exKb ⟨"", []⟩).roles =
      ((extract_candidate_phrases "").map
        (fun t => roleSpecOfMatch (match_one exScorer t exKb 88))) ++
      [{ role_id := some (_augment exRawFounding).id
         file := some (_augment exRawFounding).file
         title := (_augment exRawFounding).title
         status := "match"
         confidence := some 1
         confidence_source := none
         suggestions := []
         must_haves := []
         nice_to_haves := []
         responsibilities := []
         seniority := none
         function := none
         geo := none }] :=
  nodeIntake_founding_fallback exScorer exKb "" (_augment exRawFounding)
    rfl (by decide)

/-- C4 (code bug): on the spec's own repair example
`"backend, frontend, and QA engineers"` the heuristic extractor does yield
exactly three phrases, but `"backend"` and `"frontend"` end in no known
role noun: the trailing `"engineers"` is plural while `_HEAD_NOUNS` lists
only singular nouns, so `_attach_missing_head_noun` finds no head noun to
borrow and leaves the bare modifiers unrepaired. -/
theorem heuristic_extract_head_noun_gap :
    extract_candidate_phrases "backend, frontend, and QA engineers" =
      ["backend", "frontend", "qa engineers"] ∧
    ¬ (∀ p ∈ extract_candidate_phrases "backend, frontend, and QA engineers",
        (headNoun p).isSome) := by
  constructor
  · rfl
  · decide

/-- Clock readings ~0.9 s apart inside one second. -/
def cNow1 : PyDateTime := ⟨2026, 1, 2, 3, 4, 5, 111111⟩

/-- A later reading within the same second as `cNow1`. -/
def cNow2 : PyDateTime := ⟨2026, 1, 2, 3, 4, 5, 999999⟩

/-- First save payload. -/
def cPayload1 : RolePayload :=
  ⟨"Data Analyst", ["analyst alpha"], none, none, [], [], [], none, []⟩

/-- Second save payload: identical title, different aliases. -/
def cPayload2 : RolePayload :=
  ⟨"Data Analyst", ["analyst beta"], none, none, [], [], [], none, []⟩

/-- Empty custom store. -/
def cStore0 : CustomStore := ⟨[], []⟩

/-- C2 counterexample: two `save_custom_role` invocations with the same
title in the same clock second produce the SAME id (the `%Y%m%d_%H%M%S`
suffix cannot separate them), and the second invocation's template write
replaces the first one's content at the shared path. -/
theorem saveCustomRole_same_second_cex :
    (save_custom_role cNow1 cPayload1 cStore0).1.id =
      (save_custom_role cNow2 cPayload2
        (save_custom_role cNow1 cPayload1 cStore0).2).1.id ∧
    fsRead ((save_custom_role cNow2 cPayload2
        (save_custom_role cNow1 cPayload1 cStore0).2).2.files)
        ((save_custom_role cNow1 cPayload1 cStore0).1.file) ≠
      fsRead ((save_custom_role cNow1 cPayload1 cStore0).2.files)
        ((save_custom_role cNow1 cPayload1 cStore0).1.file) := by
  constructor
  · rfl
  · decide

theorem fsRead_fsWrite (fs : List (String × CustomTemplate)) (p : String)
    (t : CustomTemplate) : fsRead (fsWrite fs p t) p = some t := by
  unfold fsRead fsWrite
  rw [List.find?_cons_of_pos _ (by simp)]
  rfl

/-- C2 as amended: two `save_custom_role` invocations whose timestamps fall
in the same clock second and whose titles are identical generate the SAME
id, target the SAME template path, and running them in sequence leaves the
second invocation's template as the sole content of that path — the
timestamp-suffix strategy only separates saves whose timestamps differ at
one-second resolution. -/
theorem saveCustomRole_same_second_overwrites (now1 now2 : PyDateTime)
    (p1 p2 : RolePayload) (store : CustomStore)
    (hsec : SameSecond now1 now2) (ht : p1.title = p2.title) :
    (save_custom_role now1 p1 store).1.id =
      (save_custom_role now2 p2 store).1.id ∧
    (save_custom_role now1 p1 store).1.file =
      (save_custom_role now2 p2 store).1.file ∧
    fsRead ((save_custom_role now2 p2
        (save_custom_role now1 p1 store).2).2.files)
        ((save_custom_role now1 p1 store).1.file) =
      some (customTemplateOf now2 p2) := by
  obtain ⟨hy, hmo, hd, hh, hmi, hs2⟩ := hsec
  have hts : strftimeTs now1 = strftimeTs now2 := by
    unfold strftimeTs
    rw [hy, hmo, hd, hh, hmi, hs2]
  have hid : customRoleId now1 p1.title = customRoleId now2 p2.title := by
    unfold customRoleId
    rw [ht, hts]
  have hpath : customRolePath now1 p1.title = customRolePath now2 p2.title := by
    unfold customRolePath
    rw [hid]
  refine ⟨hid, ?_, ?_⟩
  · show customRolePath now1 p1.title = customRolePath now2 p2.title
    exact hpath
  · show fsRead (fsWrite (fsWrite store.files (customRolePath now1 p1.title)
        (customTemplateOf now1 p1)) (customRolePath now2 p2.title)
        (customTemplateOf now2 p2)) (customRolePath now1 p1.title) =
      some (customTemplateOf now2 p2)
    rw [hpath]
    exact fsRead_fsWrite _ _ _

/-- C2 witness: the amended statement at the concrete same-second saves. -/
theorem saveCustomRole_same_second_overwrites_witness :
    (save_custom_role cNow1 cPayload1 cStore0).1.id =
      (save_custom_role cNow2 cPayload2 cStore0).1.id ∧
    (save_custom_role cNow1 cPayload1 cStore0).1.file =
      (save_custom_role cNow2 cPayload2 cStore0).1.file ∧
    fsRead ((save_custom_role cNow2 cPayload2
        (save_custom_role cNow1 cPayload1 cStore0).2).2.files)
        ((save_custom_role cNow1 cPayload1 cStore0).1.file) =
      some (customTemplateOf cNow2 cPayload2) :=
  saveCustomRole_same_second_overwrites cNow1 cNow2 cPayload1 cPayload2
    cStore0 (by exact ⟨rfl, rfl, rfl, rfl, rfl, rfl⟩) rfl

/-- C8: `load_kb` treats an absent curated or custom file exactly as an
empty (successfully parsed) collection, while a malformed file — one whose
`json.loads` raises — aborts the whole load with that error: the result is
never an `ok` value, so a corrupt collection can never masquerade as an
empty one. -/
theorem loadKb_absent_empty_malformed_raises :
    (∀ y : KBFile, load_kb .absent y = load_kb (.present (.ok [])) y) ∧
    (∀ x : KBFile, load_kb x .absent = load_kb x (.present (.ok []))) ∧
    (∀ (e : String) (y : KBFile),
      load_kb (.present (.error e)) y = .error e) ∧
    (∀ (x : KBFile) (e : String) (res : List KBRecord),
      load_kb x (.present (.error e)) ≠ .ok res) := by
  refine ⟨fun y => rfl, fun x => ?_, fun e y => rfl, fun x e res => ?_⟩
  · cases x with
    | absent => rfl
    | present p =>
      cases p with
      | error e => rfl
      | ok l => rfl
  · cases x with
    | absent => exact fun h => Except.noConfusion h
    | present p =>
      cases p with
      | error e0 => exact fun h => Except.noConfusion h
      | ok l => exact fun h => Except.noConfusion h

/-- C8 witness: a well-formed curated file cannot rescue a malformed custom
file — the load is not `ok` (in particular not an empty merge). -/
theorem loadKb_malformed_custom_witness :
    load_kb (.present (.ok [exRawFounding]))
      (.present (.error "Expecting value: line 1 column 1")) ≠
      .ok ([exRawFounding].map
        (fun r => _augment { r with file := _map_file r.file })) :=
  loadKb_absent_empty_malformed_raises.2.2.2
    (.present (.ok [exRawFounding])) "Expecting value: line 1 column 1" _

end HiringAssistant
